import Mathlib

/-!
Verification of the configopt-derive attribute-parsing core
(`src/configopt-derive/src/configopt_type/parse.rs`).

Rust strings are embedded as lists of Unicode code points (`List Nat`);
`str` converts a Lean string literal to that representation.  Fallible or
panicking Rust code is embedded in the `Outcome` type, whose `panic`
constructor marks an unconditional process abort (Rust `panic!` /
`Option::expect`) as opposed to a recoverable error value (`err`).
-/

namespace Configopt

/-- The code points of a string literal, the embedding of a Rust `String`. -/
def str (s : String) : List Nat :=
  s.data.map Char.toNat

/-- ASCII uppercase letter test (model of the character classification used
by the `heck` 0.3 case transforms on the ASCII range). -/
def isUpperCh (c : Nat) : Bool :=
  65 ≤ c && c ≤ 90

/-- ASCII lowercase letter test. -/
def isLowerCh (c : Nat) : Bool :=
  97 ≤ c && c ≤ 122

/-- ASCII digit test. -/
def isDigitCh (c : Nat) : Bool :=
  48 ≤ c && c ≤ 57

/-- ASCII alphanumeric test: the characters that belong to a word for the
purpose of `heck`'s word segmentation. -/
def isAlnumCh (c : Nat) : Bool :=
  isUpperCh c || isLowerCh c || isDigitCh c

/-- ASCII lowercasing, the effect of Rust `char::to_lowercase` on ASCII. -/
def toLowerCh (c : Nat) : Nat :=
  if isUpperCh c then c + 32 else c

/-- ASCII uppercasing, the effect of Rust `char::to_uppercase` on ASCII. -/
def toUpperCh (c : Nat) : Nat :=
  if isLowerCh c then c - 32 else c

/-!
Model of `heck` 0.3 (the case-conversion crate used by
`CasingStyle::rename`), restricted to ASCII input.

`heck`'s `transform` first segments the input into unicode words and then
splits each word further: at an underscore, after a lowercase character
followed by an uppercase one, and before the last character of an
uppercase run that is followed by a lowercase character.  On ASCII input,
segmenting into maximal alphanumeric runs (`splitWords`, underscore is not
alphanumeric) followed by the case-boundary split (`caseSplit`) yields
exactly the same word sequence as `heck`'s two-level loop, because inside a
unicode word `heck` both splits at and discards every underscore.
-/

/-- Maximal alphanumeric runs of a string, accumulator-style so that the
function is structurally recursive.  `acc` holds the current run reversed. -/
def splitWordsAux : List Nat → List Nat → List (List Nat)
  | [], acc => if acc = [] then [] else [acc.reverse]
  | c :: rest, acc =>
    if isAlnumCh c then
      splitWordsAux rest (c :: acc)
    else if acc = [] then
      splitWordsAux rest []
    else
      acc.reverse :: splitWordsAux rest []

/-- Word segmentation: the maximal alphanumeric runs of the input. -/
def splitWords (s : List Nat) : List (List Nat) :=
  splitWordsAux s []

/-- The scanning mode of `heck`'s `transform` loop: the case of the last
cased character of the current word, if any. -/
inductive WordMode where
  | boundary
  | lower
  | upper
deriving DecidableEq

/-- The mode after reading character `c`, as in `heck`'s `transform`. -/
def nextMode (m : WordMode) (c : Nat) : WordMode :=
  if isLowerCh c then .lower else if isUpperCh c then .upper else m

/-- Case-boundary splitting of one alphanumeric word, as in `heck` 0.3's
`transform`: a boundary falls after a character scanned in lowercase mode
that is followed by an uppercase character, and before an uppercase
character that extends an uppercase run and is followed by a lowercase
character.  `acc` holds the current word fragment reversed. -/
def caseSplitAux (m : WordMode) (acc : List Nat) : List Nat → List (List Nat)
  | [] => [acc.reverse]
  | [c] => [(c :: acc).reverse]
  | c :: next :: rest =>
    let nm := nextMode m c
    if nm = .lower ∧ isUpperCh next then
      (c :: acc).reverse :: caseSplitAux .boundary [] (next :: rest)
    else if m = .upper ∧ isUpperCh c ∧ isLowerCh next then
      acc.reverse :: caseSplitAux .boundary [c] (next :: rest)
    else
      caseSplitAux nm (c :: acc) (next :: rest)

/-- Case-boundary splitting of one word (empty word: no output words,
matching `heck`, whose scanning loop never runs on an empty word). -/
def caseSplit : List Nat → List (List Nat)
  | [] => []
  | c :: rest => caseSplitAux .boundary [] (c :: rest)

/-- The complete word list `heck`'s `transform` iterates over. -/
def heckWords (s : List Nat) : List (List Nat) :=
  ((splitWords s).map caseSplit).flatten

/-- Words joined with a separator emitted between consecutive words only,
matching `transform`'s `first_word` bookkeeping. -/
def joinSep (sep : List Nat) : List (List Nat) → List Nat
  | [] => []
  | [w] => w
  | w₁ :: w₂ :: ws => w₁ ++ sep ++ joinSep sep (w₂ :: ws)

/-- `heck`'s `lowercase` word writer (ASCII). -/
def lowercase (w : List Nat) : List Nat :=
  w.map toLowerCh

/-- `heck`'s `uppercase` word writer (ASCII). -/
def uppercase (w : List Nat) : List Nat :=
  w.map toUpperCh

/-- `heck`'s `capitalize` word writer: first character uppercased, the rest
lowercased (ASCII). -/
def capitalize : List Nat → List Nat
  | [] => []
  | c :: rest => toUpperCh c :: lowercase rest

/-- `heck` 0.3 `to_kebab_case`: lowercased words joined with `-`. -/
def to_kebab_case (s : List Nat) : List Nat :=
  joinSep [45] ((heckWords s).map lowercase)

/-- `heck` 0.3 `to_snake_case`: lowercased words joined with `_`. -/
def to_snake_case (s : List Nat) : List Nat :=
  joinSep [95] ((heckWords s).map lowercase)

/-- `heck` 0.3 `to_shouty_snake_case`: uppercased words joined with `_`. -/
def to_shouty_snake_case (s : List Nat) : List Nat :=
  joinSep [95] ((heckWords s).map uppercase)

/-- `heck` 0.3 `to_camel_case` (i.e. PascalCase): every word capitalized,
no separator. -/
def to_camel_case (s : List Nat) : List Nat :=
  ((heckWords s).map capitalize).flatten

/-- `heck` 0.3 `to_mixed_case` (i.e. camelCase): the word writer lowercases
while the output is still empty — hence exactly the first word, every word
being non-empty — and capitalizes afterwards; no separator. -/
def to_mixed_case (s : List Nat) : List Nat :=
  match heckWords s with
  | [] => []
  | w :: ws => lowercase w ++ (ws.map capitalize).flatten

/-- `CasingStyle` from `parse.rs`. -/
inductive CasingStyle where
  | Camel
  | Kebab
  | Pascal
  | ScreamingSnake
  | Snake
  | Verbatim
deriving DecidableEq

/-- `CasingStyle::rename` from `parse.rs`: dispatch to the `heck`
conversion of each style (`Camel` is mixed case and `Pascal` is `heck`'s
camel case, as in the source). -/
def CasingStyle.rename : CasingStyle → List Nat → List Nat
  | .Kebab, s => to_kebab_case s
  | .Snake, s => to_snake_case s
  | .ScreamingSnake, s => to_shouty_snake_case s
  | .Camel, s => to_mixed_case s
  | .Pascal, s => to_camel_case s
  | .Verbatim, s => s

/-- The result of running a piece of Rust code that may also abort the
process: `ok` a normal return, `err` a recoverable error value returned to
the caller, `panic` an unconditional process abort with its message. -/
inductive Outcome (ε α : Type) where
  | ok (a : α)
  | err (e : ε)
  | panic (msg : String)
deriving DecidableEq

/-- The value of a normal return, if any. -/
def Outcome.ok? : Outcome ε α → Option α
  | .ok a => some a
  | _ => none

/-- Rust `std::convert::Infallible`, the error type of
`<CasingStyle as FromStr>::Err`: it has no values. -/
inductive Infallible where
deriving DecidableEq

/-- `CasingStyle::from_str` from `parse.rs`: the token match, with the
source's `panic!("Invalid value for `rename_all` attribute")` on the
wildcard arm.  The declared error type is `Infallible`, so the function can
only return normally or abort. -/
def CasingStyle.from_str (s : List Nat) : Outcome Infallible CasingStyle :=
  if s = str "camel" ∨ s = str "camelcase" then .ok .Camel
  else if s = str "kebab" ∨ s = str "kebabcase" then .ok .Kebab
  else if s = str "pascal" ∨ s = str "pascalcase" then .ok .Pascal
  else if s = str "screamingsnake" ∨ s = str "screamingsnakecase" then .ok .ScreamingSnake
  else if s = str "snake" ∨ s = str "snakecase" then .ok .Snake
  else if s = str "verbatim" ∨ s = str "verbatimcase" then .ok .Verbatim
  else .panic "Invalid value for `rename_all` attribute"

/-- A field's declared type, as far as `parse.rs` inspects it: a `syn`
path type is kept as the identifiers of its segments, every other `syn`
type shape is collapsed into `other` because `inner_ty` never looks
inside it. -/
inductive RType where
  | path (segments : List (List Nat))
  | other
deriving DecidableEq

/-- `inner_ty` from `parse.rs`: the identifier of the last segment of a
path type; both failure arms of the source are `panic!`s. -/
def inner_ty : RType → Outcome Infallible (List Nat)
  | .path segments =>
    match segments.getLast? with
    | some segment => .ok segment
    | none =>
      .panic "`#[configopt]` could not find a last segment in the type path to make partial"
  | .other => .panic "`#[configopt]` only supports types specified by a path"

/-- `configopt_ident` from `parse.rs`: `ident.prepend("ConfigOpt")`, i.e.
the fixed marker string concatenated onto the front of the identifier. -/
def configopt_ident (ident : List Nat) : List Nat :=
  str "ConfigOpt" ++ ident

/-- Modelled from the spec: the structopt attribute parser
(`structopt_parser::parse_attrs`, a module not under `src/`) yields the
recognized CLI-namespace directives of a field — explicit rename string,
flatten flag, subcommand flag (§4.2); `other` stands for any further
recognized entry, which `ParsedField::new` matches with wildcard arms. -/
inductive StructOptAttr where
  | nameLitStr (name : List Nat)
  | flatten
  | subcommand
  | other
deriving DecidableEq

/-- Modelled from the spec: the serde attribute parser
(`serde_parser::parse_attrs`, a module not under `src/`) yields the
recognized serialization-namespace directives — explicit rename string and
flatten flag (§4.2); `other` stands for any further recognized entry. -/
inductive SerdeAttr where
  | flatten
  | rename (name : List Nat)
  | other
deriving DecidableEq

/-- Modelled from the spec: the configopt attribute parser
(`configopt_parser::parse_attrs`, a module not under `src/`) yields the
internal-namespace directives — the custom-conversion expression (§4.2);
the expression itself is opaque to `parse.rs` and is embedded as a `Nat`
tag. -/
inductive ConfigOptAttr where
  | toOsString (expr : Nat)
  | other
deriving DecidableEq

/-- The closure `parse.rs` passes to `find_map` for the CLI name. -/
def structopt_name_attr : StructOptAttr → Option (List Nat)
  | .nameLitStr name => some name
  | _ => none

/-- The closure `parse.rs` passes to `any` for the CLI flatten flag. -/
def structopt_is_flatten : StructOptAttr → Bool
  | .flatten => true
  | _ => false

/-- The closure `parse.rs` passes to `any` for the subcommand flag. -/
def structopt_is_subcommand : StructOptAttr → Bool
  | .subcommand => true
  | _ => false

/-- The closure `parse.rs` passes to `any` for the serde flatten flag. -/
def serde_is_flatten : SerdeAttr → Bool
  | .flatten => true
  | _ => false

/-- The serde-namespace explicit rename of an attribute, if any (used only
to state properties; `ParsedField::new` never consults it). -/
def serde_name_attr : SerdeAttr → Option (List Nat)
  | .rename name => some name
  | _ => none

/-- The closure `parse.rs` passes to `find_map` for the custom
conversion. -/
def configopt_to_os_string_attr : ConfigOptAttr → Option Nat
  | .toOsString expr => some expr
  | _ => none

/-- A `syn::Field` as far as `ParsedField::new` inspects it: the optional
identifier (`None` for a tuple-struct field), the declared type, and the
attribute lists already split into the three namespaces by the three
`parse_attrs` functions. -/
structure Field where
  ident : Option (List Nat)
  ty : RType
  structopt_attrs : List StructOptAttr
  serde_attrs : List SerdeAttr
  configopt_attrs : List ConfigOptAttr
deriving DecidableEq

/-- `ParsedField` from `parse.rs`.  The `span` field and the `structopt_ty`
field (an opaque `StructOptTy` classification computed by a module not
under `src/` and not used by any verified claim) are omitted. -/
structure ParsedField where
  ident : List Nat
  configopt_inner_ty : List Nat
  structopt_flatten : Bool
  serde_flatten : Bool
  subcommand : Bool
  structopt_rename : CasingStyle
  structopt_name : List Nat
  serde_name : List Nat
  to_os_string : Option Nat
deriving DecidableEq

/-- `ParsedField::new` from `parse.rs`: `field.ident.clone().expect(...)`
panics on a field without an identifier; `inner_ty` may panic on a
non-path type; the CLI name is the first explicit `NameLitStr` attribute
or else the CLI casing style applied to the identifier; the serialized
name is always the serde casing style applied to the identifier; the flags
are `any` scans and the custom conversion is the first `ToOsString`
attribute. -/
def ParsedField.new (field : Field) (structopt_rename : CasingStyle)
    (serde_rename : CasingStyle) : Outcome Infallible ParsedField :=
  match field.ident with
  | none => .panic "field ident to exist"
  | some ident =>
    match inner_ty field.ty with
    | .panic msg => .panic msg
    | .err e => nomatch e
    | .ok inner =>
      .ok {
        ident := ident
        configopt_inner_ty := configopt_ident inner
        structopt_rename := structopt_rename
        structopt_name :=
          (field.structopt_attrs.findSome? structopt_name_attr).getD
            (structopt_rename.rename ident)
        serde_name := serde_rename.rename ident
        structopt_flatten := field.structopt_attrs.any structopt_is_flatten
        serde_flatten := field.serde_attrs.any serde_is_flatten
        subcommand := field.structopt_attrs.any structopt_is_subcommand
        to_os_string := field.configopt_attrs.findSome? configopt_to_os_string_attr
      }

/-- `FieldType` from `parse.rs`. -/
inductive FieldType where
  | Named
  | Unnamed
  | Unit
deriving DecidableEq

/-- `syn::Fields`, the field-shape classification of a variant. -/
inductive Fields where
  | named
  | unnamed
  | unit
deriving DecidableEq

/-- The `From<&Fields> for FieldType` impl from `parse.rs`. -/
def FieldType.ofFields : Fields → FieldType
  | .named => .Named
  | .unnamed => .Unnamed
  | .unit => .Unit

/-- A `syn::Variant` as far as `ParsedVariant::new` inspects it. -/
structure Variant where
  ident : List Nat
  fields : Fields
deriving DecidableEq

/-- `ParsedVariant` from `parse.rs`; the two token streams
`Type::Variant` and `ConfigOptType::Variant` are embedded as the pair of
their two path components, and `span` is omitted. -/
structure ParsedVariant where
  full_ident : List Nat × List Nat
  full_configopt_ident : List Nat × List Nat
  field_type : FieldType
  structopt_name : List Nat
deriving DecidableEq

/-- `ParsedVariant::new` from `parse.rs`: the CLI name is always
`variant_ident.to_string().to_kebab_case()`; no casing configuration is
consulted (the source marks this with a TODO). -/
def ParsedVariant.new (type_ident : List Nat) (variant : Variant) : ParsedVariant :=
  { full_ident := (type_ident, variant.ident)
    full_configopt_ident := (configopt_ident type_ident, variant.ident)
    field_type := FieldType.ofFields variant.fields
    structopt_name := to_kebab_case variant.ident }

/-- `has_configopt_fields` from `parse.rs`. -/
def has_configopt_fields (parsed : List ParsedField) : Bool :=
  parsed.any fun f => f.ident = str "generate_config"

/-- Modelled from the spec: the registry-based derivation of a
partial-type identifier that §4.3 and §9 prescribe — a lookup in a
registry keyed by type identifier, returning the registered counterpart
and leaving unregistered types as-is.  Stated here only to compare with
the `configopt_ident` string concatenation the source actually performs. -/
def registryLookupIdent (registry : List (List Nat × List Nat)) (ident : List Nat) : List Nat :=
  match registry.find? (fun entry => entry.fst = ident) with
  | some entry => entry.snd
  | none => ident

/-- Modelled from the spec: a partial instance for the MergeEngine (§4.5,
not under `src/`) — the field slots of one schema level (flattened fields
already inlined), each optionally set, plus the subcommand selection. -/
inductive PInstance where
  | mk (fields : List (Option Nat)) : PInstance
  | withSub (fields : List (Option Nat)) (tag : Nat) (sub : PInstance) : PInstance
deriving DecidableEq

/-- Modelled from the spec: one field slot merged by precedence — a later
set value replaces, a later unset value never overrides (§4.5). -/
def mergeField (a b : Option Nat) : Option Nat :=
  match b with
  | some v => some v
  | none => a

/-- Modelled from the spec: the field slots of two instances merged
pointwise. -/
def mergeFields : List (Option Nat) → List (Option Nat) → List (Option Nat)
  | xs, [] => xs
  | [], ys => ys
  | x :: xs, y :: ys => mergeField x y :: mergeFields xs ys

/-- Modelled from the spec: two partial instances merged by precedence
(§4.5) — fields pointwise; an absent later subcommand selection never
overrides, the same selected variant merges recursively, and a different
later selection fully replaces the earlier substructure. -/
def merge2 : PInstance → PInstance → PInstance
  | .mk fa, .mk fb => .mk (mergeFields fa fb)
  | .mk fa, .withSub fb tb b => .withSub (mergeFields fa fb) tb b
  | .withSub fa ta a, .mk fb => .withSub (mergeFields fa fb) ta a
  | .withSub fa ta a, .withSub fb tb b =>
    .withSub (mergeFields fa fb) tb (if ta = tb then merge2 a b else b)

/-- Modelled from the spec: the merge of an ordered sequence of partial
instances, lowest precedence first, processed left to right (§4.5); an
empty sequence has no merge. -/
def merge : List PInstance → Option PInstance
  | [] => none
  | a :: rest => some (rest.foldl merge2 a)

/-! ### Character-level lemmas -/

theorem toLowerCh_not_upper (c : Nat) : isUpperCh (toLowerCh c) = false := by
  simp only [toLowerCh, isUpperCh]
  split
  · simp_all
    omega
  · simp_all

theorem toUpperCh_not_lower (c : Nat) : isLowerCh (toUpperCh c) = false := by
  simp only [toUpperCh, isLowerCh]
  split
  · simp_all
    omega
  · simp_all

theorem toLowerCh_idem (c : Nat) : toLowerCh (toLowerCh c) = toLowerCh c := by
  rw [toLowerCh, toLowerCh_not_upper]
  simp

theorem toUpperCh_idem (c : Nat) : toUpperCh (toUpperCh c) = toUpperCh c := by
  rw [toUpperCh, toUpperCh_not_lower]
  simp

theorem isAlnumCh_toLowerCh (c : Nat) (h : isAlnumCh c = true) :
    isAlnumCh (toLowerCh c) = true := by
  simp only [toLowerCh, isAlnumCh, isUpperCh, isLowerCh, isDigitCh] at h ⊢
  split
  · simp_all
  · simp_all
    omega

theorem isAlnumCh_toUpperCh (c : Nat) (h : isAlnumCh c = true) :
    isAlnumCh (toUpperCh c) = true := by
  simp only [toUpperCh, isAlnumCh, isUpperCh, isLowerCh, isDigitCh] at h ⊢
  split
  · simp_all
    omega
  · simp_all
    omega

/-! ### Word-segmentation lemmas -/

theorem splitWordsAux_alnum_flush (w : List Nat) :
    ∀ (r acc : List Nat), (∀ c ∈ w, isAlnumCh c = true) →
    splitWordsAux (w ++ r) acc = splitWordsAux r (w.reverse ++ acc) := by
  induction w with
  | nil => intro r acc _; simp
  | cons c w ih =>
    intro r acc h
    have hc : isAlnumCh c = true := h c (List.mem_cons_self c w)
    simp only [List.cons_append, splitWordsAux, hc, if_true, List.append_eq]
    rw [ih r (c :: acc) (fun x hx => h x (List.mem_cons_of_mem c hx))]
    simp [List.append_assoc]

theorem splitWords_all_alnum (w : List Nat) (hne : w ≠ [])
    (h : ∀ c ∈ w, isAlnumCh c = true) : splitWords w = [w] := by
  have hr : w.reverse ≠ [] := by simpa using hne
  have := splitWordsAux_alnum_flush w [] [] h
  rw [List.append_nil] at this
  rw [splitWords, this]
  simp [splitWordsAux, hr]

theorem splitWords_cons_sep (d : Nat) (hd : isAlnumCh d = false) (t : List Nat) :
    splitWords (d :: t) = splitWords t := by
  rw [splitWords, splitWords]
  simp [splitWordsAux, hd]

theorem splitWords_word_sep (w : List Nat) (hne : w ≠ [])
    (h : ∀ c ∈ w, isAlnumCh c = true) (d : Nat) (hd : isAlnumCh d = false)
    (t : List Nat) : splitWords (w ++ d :: t) = w :: splitWords t := by
  have hr : w.reverse ≠ [] := by simpa using hne
  rw [splitWords, splitWordsAux_alnum_flush w (d :: t) [] h, List.append_nil]
  simp [splitWordsAux, hd, hr, splitWords]

theorem splitWords_joinSep (d : Nat) (hd : isAlnumCh d = false) :
    ∀ ws : List (List Nat), (∀ w ∈ ws, w ≠ [] ∧ ∀ c ∈ w, isAlnumCh c = true) →
    splitWords (joinSep [d] ws) = ws := by
  intro ws
  induction ws with
  | nil => intro _; rfl
  | cons w ws ih =>
    intro h
    obtain ⟨hne, hall⟩ := h w (List.mem_cons_self w ws)
    cases ws with
    | nil => exact splitWords_all_alnum w hne hall
    | cons w' ws' =>
      have : joinSep [d] (w :: w' :: ws') = w ++ d :: joinSep [d] (w' :: ws') := by
        simp [joinSep]
      rw [this, splitWords_word_sep w hne hall d hd]
      rw [ih (fun v hv => h v (List.mem_cons_of_mem w hv))]

theorem splitWordsAux_mem (l : List Nat) :
    ∀ acc : List Nat, (∀ c ∈ acc, isAlnumCh c = true) →
    ∀ w ∈ splitWordsAux l acc, w ≠ [] ∧ ∀ c ∈ w, isAlnumCh c = true := by
  induction l with
  | nil =>
    intro acc hacc w hw
    simp only [splitWordsAux] at hw
    split at hw
    · simp at hw
    · rename_i hne
      simp only [List.mem_singleton] at hw
      subst hw
      refine ⟨by simpa using hne, ?_⟩
      intro c hc
      exact hacc c (List.mem_reverse.mp hc)
  | cons a t ih =>
    intro acc hacc w hw
    simp only [splitWordsAux] at hw
    by_cases ha : isAlnumCh a = true
    · rw [if_pos ha] at hw
      refine ih (a :: acc) ?_ w hw
      intro c hc
      rcases List.mem_cons.mp hc with rfl | hc
      · exact ha
      · exact hacc c hc
    · rw [if_neg ha] at hw
      split at hw
      · exact ih [] (by simp) w hw
      · rename_i hne
        rcases List.mem_cons.mp hw with rfl | hw
        · refine ⟨by simpa using hne, ?_⟩
          intro c hc
          exact hacc c (List.mem_reverse.mp hc)
        · exact ih [] (by simp) w hw

theorem splitWords_mem (s : List Nat) :
    ∀ w ∈ splitWords s, w ≠ [] ∧ ∀ c ∈ w, isAlnumCh c = true :=
  splitWordsAux_mem s [] (by simp)

/-! ### Case-boundary-split lemmas -/

theorem nextMode_ne_lower (m : WordMode) (c : Nat) (hm : m ≠ .lower)
    (hc : isLowerCh c = false) : nextMode m c ≠ .lower := by
  rw [nextMode, if_neg (by simp [hc])]
  split
  · simp
  · exact hm

theorem caseSplitAux_no_upper (l : List Nat) :
    ∀ (m : WordMode) (acc : List Nat), (∀ c ∈ l, isUpperCh c = false) →
    caseSplitAux m acc l = [acc.reverse ++ l] := by
  induction l with
  | nil => intro m acc _; simp [caseSplitAux]
  | cons c t ih =>
    intro m acc h
    have hc : isUpperCh c = false := h c (List.mem_cons_self c t)
    cases t with
    | nil => simp [caseSplitAux]
    | cons next rest =>
      have hnext : isUpperCh next = false := h next (by simp)
      rw [caseSplitAux, if_neg (by simp [hnext]), if_neg (by simp [hc])]
      rw [ih (nextMode m c) (c :: acc) (fun x hx => h x (List.mem_cons_of_mem c hx))]
      simp

theorem caseSplitAux_no_lower (l : List Nat) :
    ∀ (m : WordMode) (acc : List Nat), m ≠ .lower →
    (∀ c ∈ l, isLowerCh c = false) →
    caseSplitAux m acc l = [acc.reverse ++ l] := by
  induction l with
  | nil => intro m acc _ _; simp [caseSplitAux]
  | cons c t ih =>
    intro m acc hm h
    have hc : isLowerCh c = false := h c (List.mem_cons_self c t)
    cases t with
    | nil => simp [caseSplitAux]
    | cons next rest =>
      have hnext : isLowerCh next = false := h next (by simp)
      rw [caseSplitAux, if_neg (by simp [nextMode_ne_lower m c hm hc]),
        if_neg (by simp [hnext])]
      rw [ih (nextMode m c) (c :: acc) (nextMode_ne_lower m c hm hc)
        (fun x hx => h x (List.mem_cons_of_mem c hx))]
      simp

theorem caseSplit_no_upper (w : List Nat) (hne : w ≠ [])
    (h : ∀ c ∈ w, isUpperCh c = false) : caseSplit w = [w] := by
  cases w with
  | nil => exact absurd rfl hne
  | cons c rest =>
    rw [caseSplit, caseSplitAux_no_upper (c :: rest) .boundary [] h]
    simp

theorem caseSplit_no_lower (w : List Nat) (hne : w ≠ [])
    (h : ∀ c ∈ w, isLowerCh c = false) : caseSplit w = [w] := by
  cases w with
  | nil => exact absurd rfl hne
  | cons c rest =>
    rw [caseSplit, caseSplitAux_no_lower (c :: rest) .boundary [] (by simp) h]
    simp

theorem caseSplitAux_mem (l : List Nat) :
    ∀ (m : WordMode) (acc : List Nat), l ≠ [] →
    (m = .upper → acc ≠ []) → (∀ c ∈ acc, isAlnumCh c = true) →
    (∀ c ∈ l, isAlnumCh c = true) →
    ∀ w ∈ caseSplitAux m acc l, w ≠ [] ∧ ∀ c ∈ w, isAlnumCh c = true := by
  induction l with
  | nil => intro m acc hne _ _ _; exact absurd rfl hne
  | cons c t ih =>
    intro m acc _ hupper hacc hl w hw
    have hc : isAlnumCh c = true := hl c (List.mem_cons_self c t)
    have hcons : ∀ x ∈ c :: acc, isAlnumCh x = true := by
      intro x hx
      rcases List.mem_cons.mp hx with rfl | hx
      · exact hc
      · exact hacc x hx
    cases t with
    | nil =>
      simp only [caseSplitAux, List.mem_singleton] at hw
      subst hw
      refine ⟨by simp, ?_⟩
      intro x hx
      exact hcons x (List.mem_reverse.mp hx)
    | cons next rest =>
      have hrest : ∀ x ∈ next :: rest, isAlnumCh x = true :=
        fun x hx => hl x (List.mem_cons_of_mem c hx)
      rw [caseSplitAux] at hw
      split at hw
      · rcases List.mem_cons.mp hw with rfl | hw
        · refine ⟨by simp, ?_⟩
          intro x hx
          exact hcons x (List.mem_reverse.mp hx)
        · exact ih .boundary [] (by simp) (by simp) (by simp) hrest w hw
      · split at hw
        · rename_i _ hcond
          rcases List.mem_cons.mp hw with rfl | hw
          · have hane : acc ≠ [] := hupper hcond.1
            refine ⟨by simpa using hane, ?_⟩
            intro x hx
            exact hacc x (List.mem_reverse.mp hx)
          · exact ih .boundary [c] (by simp) (by simp)
              (by intro x hx; simpa using (List.mem_singleton.mp hx) ▸ hc) hrest w hw
        · exact ih (nextMode m c) (c :: acc) (by simp) (fun _ => by simp) hcons hrest w hw

theorem heckWords_mem (s : List Nat) :
    ∀ w ∈ heckWords s, w ≠ [] ∧ ∀ c ∈ w, isAlnumCh c = true := by
  intro w hw
  rw [heckWords, List.mem_flatten] at hw
  obtain ⟨zs, hzs, hwz⟩ := hw
  rw [List.mem_map] at hzs
  obtain ⟨v, hv, rfl⟩ := hzs
  obtain ⟨hvne, hvall⟩ := splitWords_mem s v hv
  cases v with
  | nil => exact absurd rfl hvne
  | cons c rest =>
    rw [caseSplit] at hwz
    exact caseSplitAux_mem (c :: rest) .boundary [] (by simp) (by simp) (by simp)
      hvall w hwz

/-! ### Stability of the word list on already-converted output -/

theorem flatten_map_singleton (l : List (List Nat)) :
    (l.map (fun w => [w])).flatten = l := by
  induction l with
  | nil => rfl
  | cons w l ih => simp [ih]

theorem heckWords_joinSep (d : Nat) (hd : isAlnumCh d = false)
    (ws : List (List Nat))
    (h1 : ∀ w ∈ ws, w ≠ [] ∧ ∀ c ∈ w, isAlnumCh c = true)
    (h2 : ∀ w ∈ ws, caseSplit w = [w]) :
    heckWords (joinSep [d] ws) = ws := by
  rw [heckWords, splitWords_joinSep d hd ws h1, List.map_congr_left h2,
    flatten_map_singleton]

theorem heckWords_lower_joinSep (d : Nat) (hd : isAlnumCh d = false)
    (ws : List (List Nat))
    (h : ∀ w ∈ ws, w ≠ [] ∧ ∀ c ∈ w, isAlnumCh c = true) :
    heckWords (joinSep [d] (ws.map lowercase)) = ws.map lowercase := by
  apply heckWords_joinSep d hd
  · intro w hw
    rw [List.mem_map] at hw
    obtain ⟨v, hv, rfl⟩ := hw
    obtain ⟨hvne, hvall⟩ := h v hv
    refine ⟨by simpa [lowercase] using hvne, ?_⟩
    intro c hc
    rw [lowercase, List.mem_map] at hc
    obtain ⟨c₀, hc₀, rfl⟩ := hc
    exact isAlnumCh_toLowerCh c₀ (hvall c₀ hc₀)
  · intro w hw
    rw [List.mem_map] at hw
    obtain ⟨v, hv, rfl⟩ := hw
    obtain ⟨hvne, _⟩ := h v hv
    apply caseSplit_no_upper
    · simpa [lowercase] using hvne
    · intro c hc
      rw [lowercase, List.mem_map] at hc
      obtain ⟨c₀, _, rfl⟩ := hc
      exact toLowerCh_not_upper c₀

theorem heckWords_upper_joinSep (d : Nat) (hd : isAlnumCh d = false)
    (ws : List (List Nat))
    (h : ∀ w ∈ ws, w ≠ [] ∧ ∀ c ∈ w, isAlnumCh c = true) :
    heckWords (joinSep [d] (ws.map uppercase)) = ws.map uppercase := by
  apply heckWords_joinSep d hd
  · intro w hw
    rw [List.mem_map] at hw
    obtain ⟨v, hv, rfl⟩ := hw
    obtain ⟨hvne, hvall⟩ := h v hv
    refine ⟨by simpa [uppercase] using hvne, ?_⟩
    intro c hc
    rw [uppercase, List.mem_map] at hc
    obtain ⟨c₀, hc₀, rfl⟩ := hc
    exact isAlnumCh_toUpperCh c₀ (hvall c₀ hc₀)
  · intro w hw
    rw [List.mem_map] at hw
    obtain ⟨v, hv, rfl⟩ := hw
    obtain ⟨hvne, _⟩ := h v hv
    apply caseSplit_no_lower
    · simpa [uppercase] using hvne
    · intro c hc
      rw [uppercase, List.mem_map] at hc
      obtain ⟨c₀, _, rfl⟩ := hc
      exact toUpperCh_not_lower c₀

theorem lowercase_idem (w : List Nat) : lowercase (lowercase w) = lowercase w := by
  simp only [lowercase, List.map_map]
  exact List.map_congr_left fun c _ => toLowerCh_idem c

theorem uppercase_idem (w : List Nat) : uppercase (uppercase w) = uppercase w := by
  simp only [uppercase, List.map_map]
  exact List.map_congr_left fun c _ => toUpperCh_idem c

/-! ### Idempotence of the lower- and upper-casing conversions -/

theorem to_kebab_case_idem (s : List Nat) :
    to_kebab_case (to_kebab_case s) = to_kebab_case s := by
  simp only [to_kebab_case]
  rw [heckWords_lower_joinSep 45 (by decide) (heckWords s) (heckWords_mem s),
    List.map_map]
  exact congrArg (joinSep [45]) (List.map_congr_left fun w _ => lowercase_idem w)

theorem to_snake_case_idem (s : List Nat) :
    to_snake_case (to_snake_case s) = to_snake_case s := by
  simp only [to_snake_case]
  rw [heckWords_lower_joinSep 95 (by decide) (heckWords s) (heckWords_mem s),
    List.map_map]
  exact congrArg (joinSep [95]) (List.map_congr_left fun w _ => lowercase_idem w)

theorem to_shouty_snake_case_idem (s : List Nat) :
    to_shouty_snake_case (to_shouty_snake_case s) = to_shouty_snake_case s := by
  simp only [to_shouty_snake_case]
  rw [heckWords_upper_joinSep 95 (by decide) (heckWords s) (heckWords_mem s),
    List.map_map]
  exact congrArg (joinSep [95]) (List.map_congr_left fun w _ => uppercase_idem w)

/-! ### Attribute-scan lemmas -/

theorem findSome?_eq_head?_filterMap {α β : Type} (f : α → Option β) (l : List α) :
    l.findSome? f = (l.filterMap f).head? := by
  induction l with
  | nil => rfl
  | cons a l ih =>
    cases h : f a with
    | none =>
      have e1 : List.findSome? f (a :: l) = List.findSome? f l := by
        rw [List.findSome?_cons, h]
      have e2 : List.filterMap f (a :: l) = List.filterMap f l := by
        rw [List.filterMap_cons, h]
      rw [e1, e2, ih]
    | some b =>
      have e1 : List.findSome? f (a :: l) = some b := by
        rw [List.findSome?_cons, h]
      have e2 : List.filterMap f (a :: l) = b :: List.filterMap f l := by
        rw [List.filterMap_cons, h]
      rw [e1, e2]
      rfl

/-! ### Claim theorems -/

/-- Claim C1: for a named field whose metadata contains no explicit rename
in either namespace, the CLI name computed by `ParsedField::new` is the CLI
casing style applied to the field identifier, and the serialized name is
the serde casing style applied to the field identifier. -/
theorem default_names_follow_casing
    (ident : List Nat) (ty : RType) (t : List Nat)
    (sa : List StructOptAttr) (se : List SerdeAttr) (ca : List ConfigOptAttr)
    (structopt_rename serde_rename : CasingStyle)
    (hty : inner_ty ty = .ok t)
    (hnoname : sa.filterMap structopt_name_attr = [])
    (_hnoserde : se.filterMap serde_name_attr = []) :
    (ParsedField.new ⟨some ident, ty, sa, se, ca⟩ structopt_rename serde_rename).ok?.map
        ParsedField.structopt_name = some (structopt_rename.rename ident) ∧
    (ParsedField.new ⟨some ident, ty, sa, se, ca⟩ structopt_rename serde_rename).ok?.map
        ParsedField.serde_name = some (serde_rename.rename ident) := by
  have hfs : sa.findSome? structopt_name_attr = none := by
    rw [findSome?_eq_head?_filterMap, hnoname]; rfl
  simp [ParsedField.new, hty, Outcome.ok?, hfs]

theorem default_names_follow_casing_witness :
    (ParsedField.new ⟨some (str "my_field"), RType.path [str "String"], [], [], []⟩
        CasingStyle.Kebab CasingStyle.Snake).ok?.map ParsedField.structopt_name =
      some (CasingStyle.Kebab.rename (str "my_field")) ∧
    (ParsedField.new ⟨some (str "my_field"), RType.path [str "String"], [], [], []⟩
        CasingStyle.Kebab CasingStyle.Snake).ok?.map ParsedField.serde_name =
      some (CasingStyle.Snake.rename (str "my_field")) :=
  default_names_follow_casing (str "my_field") (RType.path [str "String"]) (str "String")
    [] [] [] CasingStyle.Kebab CasingStyle.Snake (by decide) rfl rfl

/-- Claim C2 counterexample: a field whose serde-namespace metadata carries
the explicit rename `"foo"` still gets `serde_name = "my_field"`, the
casing-style computation — `ParsedField::new` never consults serde renames,
so the explicit rename does not override in the serialization namespace. -/
theorem serde_rename_ignored :
    (ParsedField.new ⟨some (str "my_field"), RType.path [str "String"], [],
        [SerdeAttr.rename (str "foo")], []⟩ CasingStyle.Snake CasingStyle.Snake).ok?.map
      ParsedField.serde_name = some (str "my_field") ∧
    str "my_field" ≠ str "foo" := by decide

/-- Claim C2 (amended): an explicit rename string overrides the
casing-style computation in the CLI-exposure namespace only; in the
serialization namespace `ParsedField::new` always applies the serde casing
style to the identifier, ignoring any explicit serde rename. -/
theorem explicit_rename_cli_only
    (ident : List Nat) (ty : RType) (t n : List Nat)
    (sa : List StructOptAttr) (se : List SerdeAttr) (ca : List ConfigOptAttr)
    (structopt_rename serde_rename : CasingStyle)
    (hty : inner_ty ty = .ok t)
    (hname : (sa.filterMap structopt_name_attr).head? = some n) :
    (ParsedField.new ⟨some ident, ty, sa, se, ca⟩ structopt_rename serde_rename).ok?.map
        ParsedField.structopt_name = some n ∧
    (ParsedField.new ⟨some ident, ty, sa, se, ca⟩ structopt_rename serde_rename).ok?.map
        ParsedField.serde_name = some (serde_rename.rename ident) := by
  have hfs : sa.findSome? structopt_name_attr = some n := by
    rw [findSome?_eq_head?_filterMap, hname]
  simp [ParsedField.new, hty, Outcome.ok?, hfs]

theorem explicit_rename_cli_only_witness :
    (ParsedField.new ⟨some (str "port"), RType.path [str "u16"],
        [StructOptAttr.nameLitStr (str "listen-port")], [SerdeAttr.rename (str "ignored")],
        []⟩ CasingStyle.Kebab CasingStyle.Snake).ok?.map ParsedField.structopt_name =
      some (str "listen-port") ∧
    (ParsedField.new ⟨some (str "port"), RType.path [str "u16"],
        [StructOptAttr.nameLitStr (str "listen-port")], [SerdeAttr.rename (str "ignored")],
        []⟩ CasingStyle.Kebab CasingStyle.Snake).ok?.map ParsedField.serde_name =
      some (CasingStyle.Snake.rename (str "port")) :=
  explicit_rename_cli_only (str "port") (RType.path [str "u16"]) (str "u16")
    (str "listen-port") [StructOptAttr.nameLitStr (str "listen-port")]
    [SerdeAttr.rename (str "ignored")] [] CasingStyle.Kebab CasingStyle.Snake
    (by decide) rfl

/-- Claim C3 counterexample: on the unrecognized token `"bogus"`,
`CasingStyle::from_str` aborts the process (the source's `panic!` on the
wildcard arm) instead of returning a recoverable error value; its error
type is `Infallible`, so no error value can ever be returned. -/
theorem from_str_panics_on_unrecognized_token :
    CasingStyle.from_str (str "bogus") =
      .panic "Invalid value for `rename_all` attribute" := by decide

/-- Claim C3 (amended): for every input that is not one of the twelve
recognized casing-style tokens, `CasingStyle::from_str` panics with
`Invalid value for rename_all attribute` — a process abort, not a
recoverable error; the declared error type `Infallible` has no values, so
a recoverable `err` result is impossible. -/
theorem from_str_unrecognized_panics (s : List Nat)
    (h : ¬(s = str "camel" ∨ s = str "camelcase" ∨ s = str "kebab" ∨ s = str "kebabcase" ∨
      s = str "pascal" ∨ s = str "pascalcase" ∨ s = str "screamingsnake" ∨
      s = str "screamingsnakecase" ∨ s = str "snake" ∨ s = str "snakecase" ∨
      s = str "verbatim" ∨ s = str "verbatimcase")) :
    CasingStyle.from_str s = .panic "Invalid value for `rename_all` attribute" := by
  push_neg at h
  obtain ⟨h1, h2, h3, h4, h5, h6, h7, h8, h9, h10, h11, h12⟩ := h
  simp [CasingStyle.from_str, h1, h2, h3, h4, h5, h6, h7, h8, h9, h10, h11, h12]

theorem from_str_unrecognized_panics_witness :
    CasingStyle.from_str (str "kebab-case") =
      .panic "Invalid value for `rename_all` attribute" :=
  from_str_unrecognized_panics (str "kebab-case") (by decide)

/-- Claim C4 counterexample: `CasingStyle::rename` is not idempotent for
the Pascal and Camel styles on the non-empty inputs `a_b` and `a_b_c`
(`Pascal` sends `a_b` to `AB` and `AB` to `Ab`; `Camel` sends `a_b_c` to
`aBC` and `aBC` to `aBc`). -/
theorem rename_pascal_camel_not_idem :
    str "a_b" ≠ [] ∧
    CasingStyle.Pascal.rename (CasingStyle.Pascal.rename (str "a_b")) ≠
      CasingStyle.Pascal.rename (str "a_b") ∧
    CasingStyle.Camel.rename (CasingStyle.Camel.rename (str "a_b_c")) ≠
      CasingStyle.Camel.rename (str "a_b_c") := by decide

/-- Claim C4 (amended): `CasingStyle::rename` is idempotent on every
non-empty input for the Kebab, Snake, ScreamingSnake and Verbatim styles,
and Verbatim is the identity on every input; the Pascal and Camel styles
are excluded, being non-idempotent. -/
theorem rename_idem_except_pascal_camel :
    (∀ (c : CasingStyle) (s : List Nat), c ≠ .Camel → c ≠ .Pascal → s ≠ [] →
      c.rename (c.rename s) = c.rename s) ∧
    (∀ s : List Nat, CasingStyle.Verbatim.rename s = s) := by
  constructor
  · intro c s hc hp _
    cases c with
    | Camel => exact absurd rfl hc
    | Pascal => exact absurd rfl hp
    | Kebab => exact to_kebab_case_idem s
    | Snake => exact to_snake_case_idem s
    | ScreamingSnake => exact to_shouty_snake_case_idem s
    | Verbatim => rfl
  · intro s
    rfl

theorem rename_idem_except_pascal_camel_witness :
    CasingStyle.Kebab.rename (CasingStyle.Kebab.rename (str "my_field")) =
      CasingStyle.Kebab.rename (str "my_field") :=
  rename_idem_except_pascal_camel.1 CasingStyle.Kebab (str "my_field")
    (by decide) (by decide) (by decide)

/-- Claim C5: the descriptor built by `ParsedField::new` is a function of,
per namespace and directive, the first occurrence of each value-carrying
directive (explicit CLI rename, custom conversion) and the mere presence
of each flag directive (CLI flatten, subcommand, serde flatten) — hence it
does not depend on the source order of the metadata entries beyond
first-occurrence-wins for repeated directives of the same kind. -/
theorem normalization_order_independent
    (ident : Option (List Nat)) (ty : RType)
    (sa₁ sa₂ : List StructOptAttr) (se₁ se₂ : List SerdeAttr)
    (ca₁ ca₂ : List ConfigOptAttr) (structopt_rename serde_rename : CasingStyle)
    (hname : (sa₁.filterMap structopt_name_attr).head? =
      (sa₂.filterMap structopt_name_attr).head?)
    (hflat : sa₁.any structopt_is_flatten = sa₂.any structopt_is_flatten)
    (hsub : sa₁.any structopt_is_subcommand = sa₂.any structopt_is_subcommand)
    (hsflat : se₁.any serde_is_flatten = se₂.any serde_is_flatten)
    (hconv : (ca₁.filterMap configopt_to_os_string_attr).head? =
      (ca₂.filterMap configopt_to_os_string_attr).head?) :
    ParsedField.new ⟨ident, ty, sa₁, se₁, ca₁⟩ structopt_rename serde_rename =
      ParsedField.new ⟨ident, ty, sa₂, se₂, ca₂⟩ structopt_rename serde_rename := by
  cases ident with
  | none => rfl
  | some i =>
    cases h : inner_ty ty with
    | err e => exact nomatch e
    | panic msg => simp [ParsedField.new, h]
    | ok inner =>
      simp only [ParsedField.new, h]
      rw [findSome?_eq_head?_filterMap structopt_name_attr sa₁,
        findSome?_eq_head?_filterMap structopt_name_attr sa₂,
        findSome?_eq_head?_filterMap configopt_to_os_string_attr ca₁,
        findSome?_eq_head?_filterMap configopt_to_os_string_attr ca₂,
        hname, hconv, hflat, hsub, hsflat]

theorem normalization_order_independent_witness :
    ParsedField.new ⟨some (str "port"), RType.path [str "u16"],
        [StructOptAttr.flatten, StructOptAttr.nameLitStr (str "x")], [], []⟩
      CasingStyle.Kebab CasingStyle.Snake =
    ParsedField.new ⟨some (str "port"), RType.path [str "u16"],
        [StructOptAttr.nameLitStr (str "x"), StructOptAttr.flatten,
          StructOptAttr.nameLitStr (str "y")], [], []⟩
      CasingStyle.Kebab CasingStyle.Snake :=
  normalization_order_independent (some (str "port")) (RType.path [str "u16"])
    [StructOptAttr.flatten, StructOptAttr.nameLitStr (str "x")]
    [StructOptAttr.nameLitStr (str "x"), StructOptAttr.flatten,
      StructOptAttr.nameLitStr (str "y")]
    [] [] [] [] CasingStyle.Kebab CasingStyle.Snake
    (by decide) (by decide) (by decide) rfl rfl

/-- Claim C6: the CLI name of every enum variant built by
`ParsedVariant::new` is the fixed kebab-case transform of the variant
identifier — `ParsedVariant::new` takes no casing configuration at all, so
the name is independent of any per-field or schema-level casing style. -/
theorem variant_name_fixed_kebab (type_ident : List Nat) (variant : Variant) :
    (ParsedVariant.new type_ident variant).structopt_name =
      CasingStyle.Kebab.rename variant.ident := rfl

/-- Claim C7 counterexample: with nothing registered anywhere, the
registry-based derivation the spec prescribes leaves `Foo` as-is, while
`configopt_ident` unconditionally returns the string concatenation
`ConfigOptFoo` — the code derives the partial-type identifier by
concatenating a fixed marker, not by registry lookup. -/
theorem configopt_ident_is_string_concat :
    configopt_ident (str "Foo") = str "ConfigOpt" ++ str "Foo" ∧
    registryLookupIdent [] (str "Foo") = str "Foo" ∧
    configopt_ident (str "Foo") ≠ registryLookupIdent [] (str "Foo") := by decide

/-- Claim C7 (amended): the partial-type identifier recorded by
`ParsedField::new` is always the fixed marker `ConfigOpt` string-prepended
to the last segment of the field's declared type path; no registry is
consulted and no type is ever left as-is. -/
theorem configopt_inner_ty_by_concat
    (field : Field) (t : List Nat) (structopt_rename serde_rename : CasingStyle)
    (ident : List Nat) (hid : field.ident = some ident)
    (hty : inner_ty field.ty = .ok t) :
    (ParsedField.new field structopt_rename serde_rename).ok?.map
      ParsedField.configopt_inner_ty = some (str "ConfigOpt" ++ t) := by
  simp [ParsedField.new, hid, hty, Outcome.ok?, configopt_ident]

theorem configopt_inner_ty_by_concat_witness :
    (ParsedField.new ⟨some (str "opt"), RType.path [str "config", str "Foo"], [], [], []⟩
        CasingStyle.Kebab CasingStyle.Snake).ok?.map ParsedField.configopt_inner_ty =
      some (str "ConfigOpt" ++ str "Foo") :=
  configopt_inner_ty_by_concat
    ⟨some (str "opt"), RType.path [str "config", str "Foo"], [], [], []⟩ (str "Foo")
    CasingStyle.Kebab CasingStyle.Snake (str "opt") rfl (by decide)

/-- Claim C8 counterexample: on a non-path type, `inner_ty` aborts the
process with the source's `panic!` message instead of returning a typed
`UnsupportedTypeShape` error value. -/
theorem inner_ty_panics_on_non_path :
    inner_ty RType.other =
      .panic "`#[configopt]` only supports types specified by a path" := rfl

/-- Claim C8 (amended): for a named field whose declared type is not a path
type, or is a path with no last segment, `ParsedField::new` panics (via
`inner_ty`) rather than returning a typed error value. -/
theorem non_path_type_panics (field : Field) (ident : List Nat)
    (structopt_rename serde_rename : CasingStyle) (hid : field.ident = some ident) :
    (field.ty = RType.other →
      ParsedField.new field structopt_rename serde_rename =
        .panic "`#[configopt]` only supports types specified by a path") ∧
    (field.ty = RType.path [] →
      ParsedField.new field structopt_rename serde_rename =
        .panic "`#[configopt]` could not find a last segment in the type path to make partial") := by
  constructor <;> intro h <;> simp [ParsedField.new, hid, h, inner_ty]

theorem non_path_type_panics_witness :
    ParsedField.new ⟨some (str "f"), RType.other, [], [], []⟩
        CasingStyle.Kebab CasingStyle.Snake =
      .panic "`#[configopt]` only supports types specified by a path" :=
  (non_path_type_panics ⟨some (str "f"), RType.other, [], [], []⟩ (str "f")
    CasingStyle.Kebab CasingStyle.Snake rfl).1 rfl

/-- Claim C9: the precedence merge is the left fold of the two-instance
merge, so merging a singleton sequence returns that instance unchanged,
and merging `[A, B, C]` equals merging `[merge [A, B], C]`. -/
theorem merge_identity_assoc :
    (∀ a : PInstance, merge [a] = some a) ∧
    (∀ a b c ab : PInstance, merge [a, b] = some ab → merge [a, b, c] = merge [ab, c]) := by
  refine ⟨fun a => rfl, fun a b c ab h => ?_⟩
  simp only [merge, List.foldl_cons, List.foldl_nil] at h ⊢
  injection h with h
  rw [h]

theorem merge_identity_assoc_witness :
    merge [PInstance.mk [some 1, none]] = some (PInstance.mk [some 1, none]) ∧
    merge [PInstance.mk [some 1, none], PInstance.mk [none, some 2],
        PInstance.withSub [none, none] 0 (PInstance.mk [])] =
      merge [PInstance.mk [some 1, some 2],
        PInstance.withSub [none, none] 0 (PInstance.mk [])] :=
  ⟨merge_identity_assoc.1 (PInstance.mk [some 1, none]),
    merge_identity_assoc.2 (PInstance.mk [some 1, none]) (PInstance.mk [none, some 2])
      (PInstance.withSub [none, none] 0 (PInstance.mk []))
      (PInstance.mk [some 1, some 2]) rfl⟩

/-- Claim C10: `ParsedField::new` on a field without an identifier (a
tuple-struct field) panics with `field ident to exist` — the source's
`expect` — rather than returning a typed error value, so callers must
establish the named-field precondition first. -/
theorem new_panics_without_ident (field : Field)
    (structopt_rename serde_rename : CasingStyle) (h : field.ident = none) :
    ParsedField.new field structopt_rename serde_rename =
      .panic "field ident to exist" := by
  simp [ParsedField.new, h]

theorem new_panics_without_ident_witness :
    ParsedField.new ⟨none, RType.path [str "String"], [], [], []⟩
        CasingStyle.Kebab CasingStyle.Snake = .panic "field ident to exist" :=
  new_panics_without_ident ⟨none, RType.path [str "String"], [], [], []⟩
    CasingStyle.Kebab CasingStyle.Snake rfl

end Configopt

/-- Validation of the `heck` model against test vectors of `heck` 0.3's own
test suite (camel.rs, snake.rs, shouty_snake.rs, kebab.rs). -/
theorem heck_model_matches_heck_test_vectors :
    Configopt.to_kebab_case (Configopt.str "HelloWorld") = Configopt.str "hello-world" ∧
    Configopt.to_snake_case (Configopt.str "ThisIsATest") = Configopt.str "this_is_a_test" ∧
    Configopt.to_camel_case (Configopt.str "XMLHttpRequest") = Configopt.str "XmlHttpRequest" ∧
    Configopt.to_camel_case (Configopt.str "SHOUTY_SNAKE_CASE") = Configopt.str "ShoutySnakeCase" ∧
    Configopt.to_shouty_snake_case (Configopt.str "that-is-kebab") = Configopt.str "THAT_IS_KEBAB" ∧
    Configopt.to_mixed_case (Configopt.str "mixed_up snake_case") = Configopt.str "mixedUpSnakeCase" := by
  decide
